import Mathlib

/-!
Shallow embedding of the filtering-and-metrics aggregation engine of the
call-center dashboard repository.

Server side (src/server/index.js): `filterData`, `calculateMetrics`,
`calculateAgentMetrics`.  Client side (src/app/stores/ConversationStore.ts
views, and the per-agent recomputation in the AgentChartsModal component):
modelled in the `Store` namespace.

JavaScript numbers are modelled by `ℚ` (exact arithmetic); epoch-millisecond
timestamps by `ℤ`; `Math.round` by `jsRound` (floor of x + 1/2, which matches
JS round-half-toward-positive-infinity on the non-negative values arising
here).  Optional JS fields are `Option`; the `x || 0` idiom on numeric stat
fields is `Option.getD 0`.
-/

inductive CallType where
  | inbound
  | outbound
deriving DecidableEq, Repr

inductive Status where
  | success
  | dropped
  | transfer
  | busy
  | no_answer
deriving DecidableEq, Repr

/-- `callInfo.stats` sub-record.  The numeric fields are `Option ℚ` because the
server reads them defensively (`stats.llmLatency || 0`): a stats object may be
present while an individual field is missing. -/
structure CallStats where
  llmLatency : Option ℚ
  ttsLatency : Option ℚ
  interruptions : Option ℚ
deriving DecidableEq, Repr

structure CallInfo where
  caller : String
  callee : String
  type : CallType
  stats : Option CallStats
deriving DecidableEq, Repr

/-- One conversation record as loaded from conversations.json. -/
structure Conversation where
  id : String
  agent : String
  startTime : ℤ
  duration : ℚ
  cost : ℚ
  status : Status
  callInfo : CallInfo
deriving DecidableEq, Repr

/-- `list.reduce((sum, c) => sum + f(c), 0)`. -/
def sumQ (f : Conversation → ℚ) (l : List Conversation) : ℚ :=
  l.foldl (fun s c => s + f c) 0

/-- `Math.round` on the values arising here: floor of q + 1/2. -/
def jsRound (q : ℚ) : ℤ := ⌊q + 1 / 2⌋

/-- `Math.round(q * 100) / 100` — two decimal places. -/
def round2 (q : ℚ) : ℚ := (jsRound (q * 100) : ℚ) / 100

/-- `Math.round(q * 10) / 10` — one decimal place. -/
def round1 (q : ℚ) : ℚ := (jsRound (q * 10) : ℚ) / 10

/-- `Math.round(q)` — nearest whole unit. -/
def round0 (q : ℚ) : ℚ := (jsRound q : ℚ)

/-- The flat statistics object returned by `calculateMetrics`. -/
structure MetricsResult where
  avgCostPerCall : ℚ
  avgCostPerMin : ℚ
  successRate : ℚ
  failureRate : ℚ
  transferRate : ℚ
  abandonmentRate : ℚ
  avgInterruptions : ℚ
  avgLLMLatency : ℚ
  avgTTSLatency : ℚ
  avgTotalLatency : ℚ
  firstCallResolutionRate : ℚ
  avgCostPerSuccessfulCall : ℚ
  avgHandleTime : ℚ
  totalCalls : ℕ
  totalCost : ℚ
deriving DecidableEq, Repr

/-- `data.filter(call => call.duration > 0)`. -/
def callsWithDuration (data : List Conversation) : List Conversation :=
  data.filter fun c => decide (0 < c.duration)

/-- `data.filter(call => call.status === 'success')`. -/
def successfulCalls (data : List Conversation) : List Conversation :=
  data.filter fun c => c.status == Status.success

/-- `data.filter(call => call.status === 'transfer')`. -/
def transferredCalls (data : List Conversation) : List Conversation :=
  data.filter fun c => c.status == Status.transfer

/-- `data.filter(call => call.status === 'dropped' || call.status === 'no_answer')`. -/
def droppedCalls (data : List Conversation) : List Conversation :=
  data.filter fun c => c.status == Status.dropped || c.status == Status.no_answer

/-- `data.filter(call => call.status === 'busy')`. -/
def busyCalls (data : List Conversation) : List Conversation :=
  data.filter fun c => c.status == Status.busy

/-- `data.filter(call => call.callInfo?.stats)`. -/
def callsWithStats (data : List Conversation) : List Conversation :=
  data.filter fun c => c.callInfo.stats.isSome

/-- `data.reduce((sum, call) => sum + call.cost, 0)`. -/
def totalCost (data : List Conversation) : ℚ :=
  sumQ (fun c => c.cost) data

/-- `callsWithDuration.reduce((sum, call) => sum + call.duration, 0)`. -/
def totalDuration (data : List Conversation) : ℚ :=
  sumQ (fun c => c.duration) (callsWithDuration data)

/-- Reads a stat field with the server's `(call.callInfo.stats.f || 0)` fallback. -/
def statVal (f : CallStats → Option ℚ) (c : Conversation) : ℚ :=
  (c.callInfo.stats.bind f).getD 0

/-- `totalCalls > 0 ? totalCost / totalCalls : 0`. -/
def avgCostPerCallRaw (data : List Conversation) : ℚ :=
  if 0 < data.length then totalCost data / data.length else 0

/-- `totalDuration > 0 ? totalCost / (totalDuration / 60) : 0`. -/
def avgCostPerMinRaw (data : List Conversation) : ℚ :=
  if 0 < totalDuration data then totalCost data / (totalDuration data / 60) else 0

/-- `totalCalls > 0 ? (successfulCalls.length / totalCalls) * 100 : 0`. -/
def successRateRaw (data : List Conversation) : ℚ :=
  if 0 < data.length then
    ((successfulCalls data).length : ℚ) / (data.length : ℚ) * 100
  else 0

/-- `totalCalls > 0 ? (transferredCalls.length / totalCalls) * 100 : 0`. -/
def transferRateRaw (data : List Conversation) : ℚ :=
  if 0 < data.length then
    ((transferredCalls data).length : ℚ) / (data.length : ℚ) * 100
  else 0

/-- `totalCalls > 0 ? (droppedCalls.length / totalCalls) * 100 : 0`. -/
def abandonmentRateRaw (data : List Conversation) : ℚ :=
  if 0 < data.length then
    ((droppedCalls data).length : ℚ) / (data.length : ℚ) * 100
  else 0

/-- `totalCalls > 0 ? ((busyCalls.length + (totalCalls - successfulCalls.length -
transferredCalls.length - droppedCalls.length)) / totalCalls) * 100 : 0`. -/
def failureRateRaw (data : List Conversation) : ℚ :=
  if 0 < data.length then
    (((busyCalls data).length : ℚ) +
        ((data.length : ℚ) - ((successfulCalls data).length : ℚ) -
          ((transferredCalls data).length : ℚ) - ((droppedCalls data).length : ℚ))) /
      (data.length : ℚ) * 100
  else 0

/-- `callsWithStats.reduce((sum, call) => sum + (call.callInfo.stats.interruptions || 0), 0)`. -/
def totalInterruptions (data : List Conversation) : ℚ :=
  sumQ (statVal CallStats.interruptions) (callsWithStats data)

/-- `callsWithStats.length > 0 ? totalInterruptions / callsWithStats.length : 0`. -/
def avgInterruptionsRaw (data : List Conversation) : ℚ :=
  if 0 < (callsWithStats data).length then
    totalInterruptions data / ((callsWithStats data).length : ℚ)
  else 0

/-- `callsWithStats.reduce((sum, call) => sum + (call.callInfo.stats.llmLatency || 0), 0)`. -/
def totalLLMLatency (data : List Conversation) : ℚ :=
  sumQ (statVal CallStats.llmLatency) (callsWithStats data)

/-- `callsWithStats.reduce((sum, call) => sum + (call.callInfo.stats.ttsLatency || 0), 0)`. -/
def totalTTSLatency (data : List Conversation) : ℚ :=
  sumQ (statVal CallStats.ttsLatency) (callsWithStats data)

/-- `callsWithStats.length > 0 ? totalLLMLatency / callsWithStats.length : 0`. -/
def avgLLMLatencyRaw (data : List Conversation) : ℚ :=
  if 0 < (callsWithStats data).length then
    totalLLMLatency data / ((callsWithStats data).length : ℚ)
  else 0

/-- `callsWithStats.length > 0 ? totalTTSLatency / callsWithStats.length : 0`. -/
def avgTTSLatencyRaw (data : List Conversation) : ℚ :=
  if 0 < (callsWithStats data).length then
    totalTTSLatency data / ((callsWithStats data).length : ℚ)
  else 0

/-- `avgLLMLatency + avgTTSLatency` (full precision, before rounding). -/
def avgTotalLatencyRaw (data : List Conversation) : ℚ :=
  avgLLMLatencyRaw data + avgTTSLatencyRaw data

/-- `successfulCalls.length > 0 ? successfulCalls.reduce(cost) / successfulCalls.length : 0`. -/
def avgCostPerSuccessfulCallRaw (data : List Conversation) : ℚ :=
  if 0 < (successfulCalls data).length then
    sumQ (fun c => c.cost) (successfulCalls data) / ((successfulCalls data).length : ℚ)
  else 0

/-- `callsWithDuration.length > 0 ? totalDuration / callsWithDuration.length : 0`. -/
def avgHandleTimeRaw (data : List Conversation) : ℚ :=
  if 0 < (callsWithDuration data).length then
    totalDuration data / ((callsWithDuration data).length : ℚ)
  else 0

/-- `calculateMetrics` of src/server/index.js: the raw formulas above followed by
the rounding applied in the returned object literal. -/
def calculateMetrics (data : List Conversation) : MetricsResult where
  avgCostPerCall := round2 (avgCostPerCallRaw data)
  avgCostPerMin := round2 (avgCostPerMinRaw data)
  successRate := round1 (successRateRaw data)
  failureRate := round1 (failureRateRaw data)
  transferRate := round1 (transferRateRaw data)
  abandonmentRate := round1 (abandonmentRateRaw data)
  avgInterruptions := round2 (avgInterruptionsRaw data)
  avgLLMLatency := round0 (avgLLMLatencyRaw data)
  avgTTSLatency := round0 (avgTTSLatencyRaw data)
  avgTotalLatency := round0 (avgTotalLatencyRaw data)
  firstCallResolutionRate := round1 (successRateRaw data)
  avgCostPerSuccessfulCall := round2 (avgCostPerSuccessfulCallRaw data)
  avgHandleTime := round0 (avgHandleTimeRaw data)
  totalCalls := data.length
  totalCost := round2 (totalCost data)

/-- The all-zero `MetricsResult`. -/
def zeroMetrics : MetricsResult where
  avgCostPerCall := 0
  avgCostPerMin := 0
  successRate := 0
  failureRate := 0
  transferRate := 0
  abandonmentRate := 0
  avgInterruptions := 0
  avgLLMLatency := 0
  avgTTSLatency := 0
  avgTotalLatency := 0
  firstCallResolutionRate := 0
  avgCostPerSuccessfulCall := 0
  avgHandleTime := 0
  totalCalls := 0
  totalCost := 0

/-- A `FilterSpec` as consumed by `filterData`.  Calendar dates are modelled by
their day number (days since the Unix epoch): the server turns the date string
into epoch milliseconds by appending `T00:00:00.000Z` (start) respectively
`T23:59:59.999Z` (end), which for day number `d` is `d * 86400000`
respectively `d * 86400000 + 86399999`.  An absent dimension is `none` / the
empty list. -/
structure FilterSpec where
  dateStart : Option ℤ
  dateEnd : Option ℤ
  agents : List String
  callTypes : List CallType
  timeRanges : List String
deriving DecidableEq, Repr

/-- `new Date(start + 'T00:00:00.000Z').getTime()` for calendar day `d`. -/
def dayStartMs (d : ℤ) : ℤ := d * 86400000

/-- `new Date(end + 'T23:59:59.999Z').getTime()` for calendar day `d`. -/
def dayEndMs (d : ℤ) : ℤ := d * 86400000 + 86399999

/-- `range.split('-')` on the underlying character sequence: split at every
`'-'`; adjacent separators and string ends produce empty fragments, as in JS. -/
def splitDash : List Char → List (List Char)
  | [] => [[]]
  | c :: rest =>
    let r := splitDash rest
    if c = '-' then [] :: r
    else
      match r with
      | h :: t => (c :: h) :: t
      | [] => [[c]]

/-- A JavaScript number as produced by `Number` on a `split('-')` fragment:
finite, or `+Infinity` (from the literal `Infinity`).  `-Infinity` and
negative finite values cannot arise because a fragment contains no `'-'`;
`NaN` is `none` at the use sites. -/
inductive JSNum where
  | fin (q : ℚ)
  | inf
deriving DecidableEq, Repr

/-- The ECMAScript `WhiteSpace` and `LineTerminator` code points, which
`Number` trims from both ends of its string argument. -/
def isJsWhitespace (c : Char) : Bool :=
  decide (c.toNat = 9 ∨ c.toNat = 10 ∨ c.toNat = 11 ∨ c.toNat = 12 ∨ c.toNat = 13 ∨
    c.toNat = 32 ∨ c.toNat = 160 ∨ c.toNat = 0x1680 ∨
    (0x2000 ≤ c.toNat ∧ c.toNat ≤ 0x200A) ∨ c.toNat = 0x2028 ∨ c.toNat = 0x2029 ∨
    c.toNat = 0x202F ∨ c.toNat = 0x205F ∨ c.toNat = 0x3000 ∨ c.toNat = 0xFEFF)

def isHexDigit (c : Char) : Bool :=
  c.isDigit || decide ('a' ≤ c ∧ c ≤ 'f') || decide ('A' ≤ c ∧ c ≤ 'F')

def isOctDigit (c : Char) : Bool := decide ('0' ≤ c ∧ c ≤ '7')

def isBinDigit (c : Char) : Bool := decide (c = '0' ∨ c = '1')

/-- Value of a digit character, also for hex digits. -/
def hexDigitVal (c : Char) : ℕ :=
  if c.isDigit then c.toNat - 48
  else if decide ('a' ≤ c ∧ c ≤ 'f') then c.toNat - 87
  else c.toNat - 55

/-- Value of a digit string in the given base. -/
def digitsVal (base : ℕ) (ds : List Char) : ℕ :=
  ds.foldl (fun n c => base * n + hexDigitVal c) 0

/-- The exponent suffix of a decimal literal, after the `e`/`E`: an optional
`'+'` (a `'-'` cannot arise in a fragment) and one or more digits. -/
def parseExpPart (base : ℚ) (cs : List Char) : Option JSNum :=
  let ds := match cs with
    | '+' :: rest => rest
    | _ => cs
  if ¬ds.isEmpty ∧ ds.all Char.isDigit then
    some (JSNum.fin (base * 10 ^ digitsVal 10 ds))
  else none

/-- An unsigned `StrUnsignedDecimalLiteral` without the `Infinity` case:
`Digits [. Digits] [Exp]` or `. Digits [Exp]`; anything else is NaN. -/
def parseDecCore (t : List Char) : Option JSNum :=
  let ip := t.takeWhile Char.isDigit
  let rest1 := t.dropWhile Char.isDigit
  match rest1 with
  | [] => if ip.isEmpty then none else some (JSNum.fin (digitsVal 10 ip))
  | '.' :: rest2 =>
    let fp := rest2.takeWhile Char.isDigit
    let rest3 := rest2.dropWhile Char.isDigit
    if ip.isEmpty ∧ fp.isEmpty then none
    else
      let v : ℚ := (digitsVal 10 ip : ℚ) + (digitsVal 10 fp : ℚ) / 10 ^ fp.length
      match rest3 with
      | [] => some (JSNum.fin v)
      | e :: rest4 => if e = 'e' ∨ e = 'E' then parseExpPart v rest4 else none
  | e :: rest2 =>
    if ¬ip.isEmpty ∧ (e = 'e' ∨ e = 'E') then
      parseExpPart (digitsVal 10 ip : ℚ) rest2
    else none

/-- An unsigned `StrDecimalLiteral`: `Infinity` or a decimal literal. -/
def jsDecLiteral (t : List Char) : Option JSNum :=
  if t = "Infinity".data then some JSNum.inf else parseDecCore t

/-- A `StrNumericLiteral`: hex/octal/binary integer literals (which admit no
sign), or an unsigned decimal literal. -/
def jsNumCore (t : List Char) : Option JSNum :=
  match t with
  | '0' :: b :: rest =>
    if b = 'x' ∨ b = 'X' then
      if ¬rest.isEmpty ∧ rest.all isHexDigit then some (JSNum.fin (digitsVal 16 rest))
      else none
    else if b = 'o' ∨ b = 'O' then
      if ¬rest.isEmpty ∧ rest.all isOctDigit then some (JSNum.fin (digitsVal 8 rest))
      else none
    else if b = 'b' ∨ b = 'B' then
      if ¬rest.isEmpty ∧ rest.all isBinDigit then some (JSNum.fin (digitsVal 2 rest))
      else none
    else jsDecLiteral t
  | _ => jsDecLiteral t

/-- `Number(s)` on a fragment produced by `range.split('-')` (so `s` contains
no `'-'`): trim whitespace; the empty remainder is 0; a leading `'+'` may
prefix a decimal literal or `Infinity`; otherwise a numeric literal per
`jsNumCore`.  A non-parsing fragment (such as `short`, `medium`, `long`) is
NaN, modelled `none`. -/
def jsNum (cs : List Char) : Option JSNum :=
  let t := ((cs.dropWhile isJsWhitespace).reverse.dropWhile isJsWhitespace).reverse
  match t with
  | [] => some (JSNum.fin 0)
  | '+' :: rest => jsDecLiteral rest
  | _ => jsNumCore t

/-- `hour >= start`: false when `start` is NaN-free `+Infinity`. -/
def hourGeNum (hour : ℤ) (v : JSNum) : Bool :=
  match v with
  | JSNum.fin q => decide (q ≤ (hour : ℚ))
  | JSNum.inf => false

/-- `hour <= end`: true when `end` is `+Infinity`. -/
def hourLeNum (hour : ℤ) (v : JSNum) : Bool :=
  match v with
  | JSNum.fin q => decide ((hour : ℚ) ≤ q)
  | JSNum.inf => true

/-- One server-side `timeRanges` token test:
`const [start, end] = range.split('-').map(Number); hour >= start && hour <= end`.
A comparison against NaN, or against the undefined second component of a
one-fragment split, is false. -/
def hourTokenMatches (hour : ℤ) (tok : String) : Bool :=
  match (splitDash tok.data).map jsNum with
  | some a :: some b :: _ => hourGeNum hour a && hourLeNum hour b
  | _ => false

/-- `filterData` of src/server/index.js.  `getHours` abstracts
`new Date(t).getHours()`: the hour-of-day in the process-local timezone, a
parameter of the embedding because it depends on the executing process's
timezone. -/
def filterData (getHours : ℤ → ℤ) (data : List Conversation) (filters : FilterSpec) :
    List Conversation :=
  let fd1 :=
    match filters.dateStart, filters.dateEnd with
    | some s, some e =>
        data.filter fun c =>
          decide (dayStartMs s ≤ c.startTime ∧ c.startTime ≤ dayEndMs e)
    | _, _ => data
  let fd2 :=
    if filters.agents.isEmpty then fd1
    else fd1.filter fun c => filters.agents.contains c.agent
  let fd3 :=
    if filters.callTypes.isEmpty then fd2
    else fd2.filter fun c => filters.callTypes.contains c.callInfo.type
  if filters.timeRanges.isEmpty then fd3
  else
    fd3.filter fun c =>
      filters.timeRanges.any fun tok => hourTokenMatches (getHours c.startTime) tok

/-- The empty filter specification: every dimension absent. -/
def emptyFilterSpec : FilterSpec where
  dateStart := none
  dateEnd := none
  agents := []
  callTypes := []
  timeRanges := []

/-- The keys of `_.groupBy(data, 'agent')`: distinct values in order of first
appearance. -/
def firstKeys : List String → List String
  | [] => []
  | a :: rest => a :: firstKeys (rest.filter fun b => decide (b ≠ a))
termination_by l => l.length
decreasing_by
  simp only [List.length_cons]
  exact Nat.lt_succ_of_le (List.length_filter_le _ _)

/-- `calculateAgentMetrics` of src/server/index.js: `_.groupBy(data, 'agent')`
followed by `calculateMetrics` on each group, rendered as an association list
keyed by the distinct agents.  Lodash's `groupBy` collects, for each key, the
records with that `agent` in input order. -/
def calculateAgentMetrics (data : List Conversation) : List (String × MetricsResult) :=
  (firstKeys (data.map fun c => c.agent)).map fun a =>
    (a, calculateMetrics (data.filter fun c => c.agent == a))

namespace Store

/-!
The client-side recomputation of the same formulas: the view getters of
`ConversationStore` (src/app/stores/ConversationStore.ts), each a function of
the store's already-filtered conversation list.  The per-agent computation in
the AgentChartsModal component applies these same formulas to one agent's
records.  The client computes raw values; rounding happens only in display
components.
-/

/-- One duration-bucket test of the client `filteredConversations` view; note
the `default: return true` branch for unrecognized tokens. -/
def timeRangeMatches (duration : ℚ) (range : String) : Bool :=
  if range = "short" then decide (duration < 120)
  else if range = "medium" then decide (120 ≤ duration ∧ duration < 300)
  else if range = "long" then decide (300 ≤ duration)
  else true

/-- `avgCostPerCall` view. -/
def avgCostPerCall (filtered : List Conversation) : ℚ :=
  if filtered.length = 0 then 0
  else sumQ (fun c => c.cost) filtered / (filtered.length : ℚ)

/-- `avgCostPerMin` view: total cost over total minutes of all filtered
records (the zero-duration records contribute zero minutes). -/
def avgCostPerMin (filtered : List Conversation) : ℚ :=
  if filtered.length = 0 then 0
  else
    if 0 < sumQ (fun c => c.duration / 60) filtered then
      sumQ (fun c => c.cost) filtered / sumQ (fun c => c.duration / 60) filtered
    else 0

/-- `successRate` view. -/
def successRate (filtered : List Conversation) : ℚ :=
  if filtered.length = 0 then 0
  else
    ((filtered.filter fun c => c.status == Status.success).length : ℚ) /
      (filtered.length : ℚ) * 100

/-- `failureRate` view: the client counts `dropped` and `no_answer`. -/
def failureRate (filtered : List Conversation) : ℚ :=
  if filtered.length = 0 then 0
  else
    ((filtered.filter fun c =>
          c.status == Status.dropped || c.status == Status.no_answer).length : ℚ) /
      (filtered.length : ℚ) * 100

/-- `transferRate` view. -/
def transferRate (filtered : List Conversation) : ℚ :=
  if filtered.length = 0 then 0
  else
    ((filtered.filter fun c => c.status == Status.transfer).length : ℚ) /
      (filtered.length : ℚ) * 100

/-- `abandonmentRate` view: the client counts `busy` and `no_answer`. -/
def abandonmentRate (filtered : List Conversation) : ℚ :=
  if filtered.length = 0 then 0
  else
    ((filtered.filter fun c =>
          c.status == Status.busy || c.status == Status.no_answer).length : ℚ) /
      (filtered.length : ℚ) * 100

/-- `avgInterruptions` view. -/
def avgInterruptions (filtered : List Conversation) : ℚ :=
  let withStats := filtered.filter fun c => c.callInfo.stats.isSome
  if withStats.length = 0 then 0
  else sumQ (statVal CallStats.interruptions) withStats / (withStats.length : ℚ)

/-- `avgLLMLatency` view. -/
def avgLLMLatency (filtered : List Conversation) : ℚ :=
  let withStats := filtered.filter fun c => c.callInfo.stats.isSome
  if withStats.length = 0 then 0
  else sumQ (statVal CallStats.llmLatency) withStats / (withStats.length : ℚ)

/-- `avgTTSLatency` view. -/
def avgTTSLatency (filtered : List Conversation) : ℚ :=
  let withStats := filtered.filter fun c => c.callInfo.stats.isSome
  if withStats.length = 0 then 0
  else sumQ (statVal CallStats.ttsLatency) withStats / (withStats.length : ℚ)

/-- `avgTotalLatency` view: the client sums `llmLatency + ttsLatency` per
record and divides once. -/
def avgTotalLatency (filtered : List Conversation) : ℚ :=
  let withStats := filtered.filter fun c => c.callInfo.stats.isSome
  if withStats.length = 0 then 0
  else
    sumQ (fun c => statVal CallStats.llmLatency c + statVal CallStats.ttsLatency c)
        withStats / (withStats.length : ℚ)

/-- `avgCostPerSuccessfulCall` view. -/
def avgCostPerSuccessfulCall (filtered : List Conversation) : ℚ :=
  let succ := filtered.filter fun c => c.status == Status.success
  if succ.length = 0 then 0
  else sumQ (fun c => c.cost) succ / (succ.length : ℚ)

/-- `avgHandleTime` view: the client averages `duration` over ALL filtered
records, including the zero-duration ones. -/
def avgHandleTime (filtered : List Conversation) : ℚ :=
  if filtered.length = 0 then 0
  else sumQ (fun c => c.duration) filtered / (filtered.length : ℚ)

end Store

/-! ### Helper lemmas about sums -/

theorem sumQ_foldl (f : Conversation → ℚ) :
    ∀ (l : List Conversation) (a : ℚ), l.foldl (fun s c => s + f c) a = a + sumQ f l := by
  intro l
  induction l with
  | nil => intro a; simp [sumQ]
  | cons c t ih =>
    intro a
    have h1 : (c :: t).foldl (fun s d => s + f d) a = t.foldl (fun s d => s + f d) (a + f c) := rfl
    have h2 : sumQ f (c :: t) = t.foldl (fun s d => s + f d) (0 + f c) := rfl
    rw [h1, ih, h2, ih]
    ring

theorem sumQ_nil (f : Conversation → ℚ) : sumQ f [] = 0 := rfl

theorem sumQ_cons (f : Conversation → ℚ) (c : Conversation) (l : List Conversation) :
    sumQ f (c :: l) = f c + sumQ f l := by
  have h : sumQ f (c :: l) = l.foldl (fun s d => s + f d) (0 + f c) := rfl
  rw [h, sumQ_foldl]
  ring

theorem sumQ_add (f g : Conversation → ℚ) (l : List Conversation) :
    sumQ (fun c => f c + g c) l = sumQ f l + sumQ g l := by
  induction l with
  | nil => simp [sumQ_nil]
  | cons c t ih => rw [sumQ_cons, sumQ_cons, sumQ_cons, ih]; ring

theorem sumQ_div (f : Conversation → ℚ) (k : ℚ) (l : List Conversation) :
    sumQ (fun c => f c / k) l = sumQ f l / k := by
  induction l with
  | nil => simp [sumQ_nil]
  | cons c t ih => rw [sumQ_cons, sumQ_cons, ih]; ring

theorem sumQ_nonneg (f : Conversation → ℚ) (l : List Conversation)
    (h : ∀ c ∈ l, 0 ≤ f c) : 0 ≤ sumQ f l := by
  induction l with
  | nil => simp [sumQ_nil]
  | cons c t ih =>
    rw [sumQ_cons]
    have hc := h c (by simp)
    have ht := ih fun x hx => h x (by simp [hx])
    linarith

theorem sumQ_map (g : Conversation → ℚ) (h : Conversation → Conversation) (l : List Conversation) :
    sumQ g (l.map h) = sumQ (fun c => g (h c)) l := by
  induction l with
  | nil => simp [sumQ_nil]
  | cons c t ih => rw [List.map_cons, sumQ_cons, sumQ_cons, ih]

/-- Dropping the `duration > 0` records from a duration sum changes nothing
when all durations are non-negative: the dropped records contribute `0`. -/
theorem sumQ_duration_filter (l : List Conversation) (h : ∀ c ∈ l, 0 ≤ c.duration) :
    sumQ (fun c => c.duration) (l.filter fun c => decide (0 < c.duration)) =
      sumQ (fun c => c.duration) l := by
  induction l with
  | nil => rfl
  | cons c t ih =>
    have hc := h c (by simp)
    have ht := ih fun x hx => h x (by simp [hx])
    by_cases hd : 0 < c.duration
    · simp [List.filter_cons, hd, sumQ_cons, ht]
    · have h0 : c.duration = 0 := le_antisymm (not_lt.mp hd) hc
      simp [List.filter_cons, hd, sumQ_cons, ht, h0]

/-! ### Helper lemmas about rounding -/

theorem jsRound_le (q : ℚ) : (jsRound q : ℚ) ≤ q + 1 / 2 := Int.floor_le _

theorem lt_jsRound (q : ℚ) : q - 1 / 2 < (jsRound q : ℚ) := by
  have h := Int.sub_one_lt_floor (q + 1 / 2)
  unfold jsRound
  linarith

theorem jsRound_nonneg (q : ℚ) (h : 0 ≤ q) : 0 ≤ jsRound q := by
  have h1 := lt_jsRound q
  have h2 : (-1 : ℚ) < (jsRound q : ℚ) := by linarith
  have h3 : (-1 : ℤ) < jsRound q := by exact_mod_cast h2
  omega

theorem jsRound_le_of_le (q : ℚ) (n : ℤ) (h : q ≤ n) : jsRound q ≤ n := by
  have h1 : (jsRound q : ℚ) ≤ (n : ℚ) + 1 / 2 := le_trans (jsRound_le q) (by linarith)
  have h2 : (jsRound q : ℚ) < (n : ℚ) + 1 := by linarith
  have h3 : jsRound q < n + 1 := by exact_mod_cast h2
  omega

theorem round1_nonneg (q : ℚ) (h : 0 ≤ q) : 0 ≤ round1 q := by
  unfold round1
  have := jsRound_nonneg (q * 10) (by linarith)
  positivity

theorem round1_le_of_le (q : ℚ) (n : ℕ) (h : q ≤ n) : round1 q ≤ n := by
  unfold round1
  have h1 : jsRound (q * 10) ≤ (n : ℤ) * 10 := by
    apply jsRound_le_of_le
    push_cast
    linarith
  have h2 : ((jsRound (q * 10) : ℤ) : ℚ) ≤ ((n : ℤ) * 10 : ℤ) := by exact_mod_cast h1
  push_cast at h2 ⊢
  linarith

theorem abs_round1_sub_le (q : ℚ) : |round1 q - q| ≤ 1 / 20 := by
  unfold round1
  have h1 := jsRound_le (q * 10)
  have h2 := lt_jsRound (q * 10)
  rw [abs_le]
  constructor <;> [linarith; linarith]

theorem abs_round0_sub_le (q : ℚ) : |round0 q - q| ≤ 1 / 2 := by
  unfold round0
  have h1 := jsRound_le q
  have h2 := lt_jsRound q
  rw [abs_le]
  constructor <;> [linarith; linarith]

/-- Rounding each addend to a whole unit and rounding the sum to a whole unit
agree to within one unit. -/
theorem round0_add_bound (x y : ℚ) : |round0 (x + y) - (round0 x + round0 y)| ≤ 1 := by
  have hi : round0 (x + y) - (round0 x + round0 y) =
      ((jsRound (x + y) - jsRound x - jsRound y : ℤ) : ℚ) := by
    unfold round0
    push_cast
    ring
  rw [hi]
  have h1 := jsRound_le (x + y)
  have h2 := jsRound_le x
  have h3 := jsRound_le y
  have h4 := lt_jsRound (x + y)
  have h5 := lt_jsRound x
  have h6 := lt_jsRound y
  have hq : |((jsRound (x + y) - jsRound x - jsRound y : ℤ) : ℚ)| < 3 / 2 := by
    rw [abs_lt]
    constructor <;> [push_cast; push_cast] <;> linarith
  have hz : |(jsRound (x + y) - jsRound x - jsRound y : ℤ)| < 2 := by
    have : (|(jsRound (x + y) - jsRound x - jsRound y : ℤ)| : ℚ) < 3 / 2 := by
      rw [← Int.cast_abs] at hq ⊢
      exact hq
    have h32 : ((3 : ℚ) / 2) < 2 := by norm_num
    exact_mod_cast lt_trans this h32
  have hz1 : |(jsRound (x + y) - jsRound x - jsRound y : ℤ)| ≤ 1 := by omega
  calc |((jsRound (x + y) - jsRound x - jsRound y : ℤ) : ℚ)|
      = (|(jsRound (x + y) - jsRound x - jsRound y : ℤ)| : ℚ) := by rw [← Int.cast_abs]
    _ ≤ 1 := by exact_mod_cast hz1

/-! ### Status classification -/

/-- The four status-classifying filters of `calculateMetrics` cover every
record exactly once: `success`, `transfer`, `dropped`/`no_answer`, `busy`
partition the five-value status enumeration. -/
theorem status_partition (data : List Conversation) :
    (successfulCalls data).length + (transferredCalls data).length +
      (droppedCalls data).length + (busyCalls data).length = data.length := by
  induction data with
  | nil => rfl
  | cons c t ih =>
    simp only [successfulCalls, transferredCalls, droppedCalls, busyCalls,
      List.filter_cons] at ih ⊢
    cases hc : c.status <;> simp [hc] <;> omega

theorem busyCalls_nil_of_busy_free (data : List Conversation)
    (h : ∀ c ∈ data, c.status ≠ Status.busy) : busyCalls data = [] := by
  unfold busyCalls
  rw [List.filter_eq_nil_iff]
  intro c hc
  simpa using h c hc

/-! ### Rate bounds -/

theorem rate_frac_bounds (k n : ℕ) (hkn : k ≤ n) :
    0 ≤ (k : ℚ) / (n : ℚ) * 100 ∧ (k : ℚ) / (n : ℚ) * 100 ≤ 100 := by
  rcases Nat.eq_zero_or_pos n with hn | hn
  · subst hn
    have hk : k = 0 := Nat.le_zero.mp hkn
    subst hk
    norm_num
  · have hn' : (0 : ℚ) < n := by exact_mod_cast hn
    have hk' : (k : ℚ) ≤ n := by exact_mod_cast hkn
    constructor
    · positivity
    · rw [div_mul_eq_mul_div, div_le_iff₀ hn']
      nlinarith

theorem rawRate_bounds (p : Conversation → Bool) (data : List Conversation) :
    0 ≤ (if 0 < data.length then ((data.filter p).length : ℚ) / (data.length : ℚ) * 100 else 0) ∧
      (if 0 < data.length then ((data.filter p).length : ℚ) / (data.length : ℚ) * 100 else 0) ≤
        100 := by
  split
  · exact rate_frac_bounds _ _ (List.length_filter_le _ _)
  · norm_num

theorem successRateRaw_bounds (data : List Conversation) :
    0 ≤ successRateRaw data ∧ successRateRaw data ≤ 100 := by
  unfold successRateRaw successfulCalls
  exact rawRate_bounds _ data

theorem transferRateRaw_bounds (data : List Conversation) :
    0 ≤ transferRateRaw data ∧ transferRateRaw data ≤ 100 := by
  unfold transferRateRaw transferredCalls
  exact rawRate_bounds _ data

theorem abandonmentRateRaw_bounds (data : List Conversation) :
    0 ≤ abandonmentRateRaw data ∧ abandonmentRateRaw data ≤ 100 := by
  unfold abandonmentRateRaw droppedCalls
  exact rawRate_bounds _ data

/-- On a nonempty record set the remainder term
`totalCalls - success - transfer - dropped` equals the busy count (the five
statuses are exhausted by the four filters), so the failure-rate numerator
double-counts every busy record. -/
theorem failureRateRaw_eq (data : List Conversation) (hpos : 0 < data.length) :
    failureRateRaw data = 2 * ((busyCalls data).length : ℚ) / (data.length : ℚ) * 100 := by
  unfold failureRateRaw
  rw [if_pos hpos]
  have hp := status_partition data
  have hq : (data.length : ℚ) =
      ((successfulCalls data).length : ℚ) + ((transferredCalls data).length : ℚ) +
        ((droppedCalls data).length : ℚ) + ((busyCalls data).length : ℚ) := by
    exact_mod_cast hp.symm
  rw [hq]
  ring

theorem failureRateRaw_bounds (data : List Conversation) :
    0 ≤ failureRateRaw data ∧ failureRateRaw data ≤ 200 := by
  rcases Nat.eq_zero_or_pos data.length with h0 | hpos
  · unfold failureRateRaw
    rw [if_neg (by omega)]
    norm_num
  · rw [failureRateRaw_eq data hpos]
    have hb : (busyCalls data).length ≤ data.length := by
      unfold busyCalls
      exact List.length_filter_le _ _
    have hbq : ((busyCalls data).length : ℚ) ≤ (data.length : ℚ) := by exact_mod_cast hb
    have hn : (0 : ℚ) < (data.length : ℚ) := by exact_mod_cast hpos
    constructor
    · positivity
    · rw [div_mul_eq_mul_div, div_le_iff₀ hn]
      nlinarith

/-- On a busy-free nonempty record set the four raw rates sum to exactly 100. -/
theorem raw_rates_sum (data : List Conversation) (hb : ∀ c ∈ data, c.status ≠ Status.busy)
    (hne : data ≠ []) :
    successRateRaw data + transferRateRaw data + abandonmentRateRaw data +
      failureRateRaw data = 100 := by
  have hpos : 0 < data.length := List.length_pos.mpr hne
  have hn : (0 : ℚ) < (data.length : ℚ) := by exact_mod_cast hpos
  have hbz : (busyCalls data).length = 0 := by
    rw [busyCalls_nil_of_busy_free data hb]
    rfl
  have hp := status_partition data
  unfold successRateRaw transferRateRaw abandonmentRateRaw
  rw [failureRateRaw_eq data hpos, if_pos hpos, if_pos hpos, if_pos hpos, hbz]
  have hsum : ((successfulCalls data).length : ℚ) + ((transferredCalls data).length : ℚ) +
      ((droppedCalls data).length : ℚ) = (data.length : ℚ) := by
    have hnat : (successfulCalls data).length + (transferredCalls data).length +
        (droppedCalls data).length = data.length := by omega
    exact_mod_cast hnat
  field_simp
  linarith

/-! ### Concrete scenarios -/

/-- Convenience constructor for concrete conversation records. -/
def mkCall (agent : String) (startTime : ℤ) (duration cost : ℚ) (status : Status)
    (stats : Option CallStats) : Conversation where
  id := agent
  agent := agent
  startTime := startTime
  duration := duration
  cost := cost
  status := status
  callInfo := { caller := "", callee := "", type := CallType.inbound, stats := stats }

/-- The four records of Scenario A. -/
def scenarioA : List Conversation :=
  [mkCall "a1" 0 60 10 Status.success none,
   mkCall "a1" 0 30 20 Status.transfer none,
   mkCall "a2" 0 0 5 Status.dropped none,
   mkCall "a2" 0 90 15 Status.success none]

/-- A single record with status `busy`. -/
def busyOnly : List Conversation := [mkCall "a" 0 0 0 Status.busy none]

/-- C1 (amended): the three single-category rates returned by `aggregate` lie
in [0, 100] and `failureRate` lies in [0, 200] (its remainder term
double-counts every `busy` record); for a nonempty record set containing no
`busy` record — the only case in which the four classifying categories are
mutually exclusive as implemented — the four returned rates sum to 100 within
the rounding tolerance of the 1-decimal rounding (at most 0.05 per rate). -/
theorem rates_bounded_and_sum_when_busy_free (data : List Conversation) :
    (0 ≤ (calculateMetrics data).successRate ∧ (calculateMetrics data).successRate ≤ 100) ∧
    (0 ≤ (calculateMetrics data).transferRate ∧ (calculateMetrics data).transferRate ≤ 100) ∧
    (0 ≤ (calculateMetrics data).abandonmentRate ∧
      (calculateMetrics data).abandonmentRate ≤ 100) ∧
    (0 ≤ (calculateMetrics data).failureRate ∧ (calculateMetrics data).failureRate ≤ 200) ∧
    ((∀ c ∈ data, c.status ≠ Status.busy) → data ≠ [] →
      |(calculateMetrics data).successRate + (calculateMetrics data).transferRate +
          (calculateMetrics data).abandonmentRate + (calculateMetrics data).failureRate -
          100| ≤ 1 / 5) := by
  have hs := successRateRaw_bounds data
  have ht := transferRateRaw_bounds data
  have ha := abandonmentRateRaw_bounds data
  have hf := failureRateRaw_bounds data
  have e1 : (calculateMetrics data).successRate = round1 (successRateRaw data) := rfl
  have e2 : (calculateMetrics data).transferRate = round1 (transferRateRaw data) := rfl
  have e3 : (calculateMetrics data).abandonmentRate = round1 (abandonmentRateRaw data) := rfl
  have e4 : (calculateMetrics data).failureRate = round1 (failureRateRaw data) := rfl
  refine ⟨⟨?_, ?_⟩, ⟨?_, ?_⟩, ⟨?_, ?_⟩, ⟨?_, ?_⟩, ?_⟩
  · rw [e1]; exact round1_nonneg _ hs.1
  · rw [e1]; simpa using round1_le_of_le _ 100 hs.2
  · rw [e2]; exact round1_nonneg _ ht.1
  · rw [e2]; simpa using round1_le_of_le _ 100 ht.2
  · rw [e3]; exact round1_nonneg _ ha.1
  · rw [e3]; simpa using round1_le_of_le _ 100 ha.2
  · rw [e4]; exact round1_nonneg _ hf.1
  · rw [e4]; simpa using round1_le_of_le _ 200 hf.2
  · intro hb hne
    have hsum := raw_rates_sum data hb hne
    have d1 := abs_le.mp (abs_round1_sub_le (successRateRaw data))
    have d2 := abs_le.mp (abs_round1_sub_le (transferRateRaw data))
    have d3 := abs_le.mp (abs_round1_sub_le (abandonmentRateRaw data))
    have d4 := abs_le.mp (abs_round1_sub_le (failureRateRaw data))
    rw [e1, e2, e3, e4, abs_le]
    obtain ⟨d1l, d1r⟩ := d1
    obtain ⟨d2l, d2r⟩ := d2
    obtain ⟨d3l, d3r⟩ := d3
    obtain ⟨d4l, d4r⟩ := d4
    constructor <;> linarith

/-- C1 witness: the busy-free nonempty Scenario A set satisfies the rate-sum
property, and its success rate is within bounds. -/
theorem rates_bounded_witness :
    0 ≤ (calculateMetrics scenarioA).successRate ∧
    |(calculateMetrics scenarioA).successRate + (calculateMetrics scenarioA).transferRate +
        (calculateMetrics scenarioA).abandonmentRate + (calculateMetrics scenarioA).failureRate -
        100| ≤ 1 / 5 := by
  have h := rates_bounded_and_sum_when_busy_free scenarioA
  refine ⟨h.1.1, h.2.2.2.2 ?_ ?_⟩
  · intro c hc
    simp only [scenarioA, mkCall, List.mem_cons, List.mem_singleton] at hc
    rcases hc with rfl | rfl | rfl | rfl | h0 <;> simp_all
  · simp [scenarioA]

/-- C1 counterexample: on a single `busy` record the returned failure rate is
200, violating both the `failureRate ≤ 100` bound and the rate-sum property
(the four rates sum to 200) even though the record's status falls only in the
failure classifying category. -/
theorem failureRate_exceeds_100_on_busy_record :
    (calculateMetrics busyOnly).failureRate = 200 ∧
    ¬((calculateMetrics busyOnly).failureRate ≤ 100) ∧
    (calculateMetrics busyOnly).successRate + (calculateMetrics busyOnly).transferRate +
        (calculateMetrics busyOnly).abandonmentRate +
        (calculateMetrics busyOnly).failureRate = 200 := by
  have hfail : (calculateMetrics busyOnly).failureRate = 200 := by
    simp only [calculateMetrics, busyOnly, mkCall, failureRateRaw, busyCalls,
      successfulCalls, transferredCalls, droppedCalls, List.filter_cons, List.filter_nil]
    simp
    norm_num [round1, jsRound]
  have hzero : ∀ r ∈ [(calculateMetrics busyOnly).successRate,
      (calculateMetrics busyOnly).transferRate,
      (calculateMetrics busyOnly).abandonmentRate], r = 0 := by
    intro r hr
    simp only [List.mem_cons, List.mem_singleton] at hr
    rcases hr with rfl | rfl | rfl | h0
    · simp only [calculateMetrics, busyOnly, mkCall, successRateRaw, successfulCalls,
        List.filter_cons, List.filter_nil]
      simp
      norm_num [round1, jsRound]
    · simp only [calculateMetrics, busyOnly, mkCall, transferRateRaw, transferredCalls,
        List.filter_cons, List.filter_nil]
      simp
      norm_num [round1, jsRound]
    · simp only [calculateMetrics, busyOnly, mkCall, abandonmentRateRaw, droppedCalls,
        List.filter_cons, List.filter_nil]
      simp
      norm_num [round1, jsRound]
    · exact absurd h0 (by simp)
  refine ⟨hfail, by rw [hfail]; norm_num, ?_⟩
  rw [hfail, hzero (calculateMetrics busyOnly).successRate (by simp),
    hzero (calculateMetrics busyOnly).transferRate (by simp),
    hzero (calculateMetrics busyOnly).abandonmentRate (by simp)]
  norm_num

theorem round2_zero : round2 0 = 0 := by
  unfold round2 jsRound
  norm_num

theorem round1_zero : round1 0 = 0 := by
  unfold round1 jsRound
  norm_num

theorem round0_zero : round0 0 = 0 := by
  unfold round0 jsRound
  norm_num

/-- C2: `aggregate` of the empty record list is the all-zero `MetricsResult`
(total, not failing), and every conditional-subset denominator is guarded
independently: whenever the `duration > 0`, `stats` present, or
`status = success` subset is empty, the corresponding average fields are 0
regardless of the rest of the record set. -/
theorem aggregate_empty_all_zero :
    calculateMetrics [] = zeroMetrics ∧
    (∀ data, callsWithDuration data = [] →
      (calculateMetrics data).avgCostPerMin = 0 ∧ (calculateMetrics data).avgHandleTime = 0) ∧
    (∀ data, callsWithStats data = [] →
      (calculateMetrics data).avgInterruptions = 0 ∧
        (calculateMetrics data).avgLLMLatency = 0 ∧
        (calculateMetrics data).avgTTSLatency = 0 ∧
        (calculateMetrics data).avgTotalLatency = 0) ∧
    (∀ data, successfulCalls data = [] →
      (calculateMetrics data).avgCostPerSuccessfulCall = 0) := by
  refine ⟨?_, ?_, ?_, ?_⟩
  · simp [calculateMetrics, zeroMetrics, avgCostPerCallRaw, avgCostPerMinRaw,
      successRateRaw, transferRateRaw, abandonmentRateRaw, failureRateRaw,
      avgInterruptionsRaw, avgLLMLatencyRaw, avgTTSLatencyRaw, avgTotalLatencyRaw,
      avgCostPerSuccessfulCallRaw, avgHandleTimeRaw, totalCost, totalDuration,
      totalInterruptions, totalLLMLatency, totalTTSLatency, sumQ,
      callsWithDuration, successfulCalls, transferredCalls, droppedCalls,
      busyCalls, callsWithStats, round2, round1, round0, jsRound]
    norm_num
  · intro data h
    have hd : totalDuration data = 0 := by
      unfold totalDuration
      rw [h, sumQ_nil]
    have h1 : (calculateMetrics data).avgCostPerMin = round2 (avgCostPerMinRaw data) := rfl
    have h2 : (calculateMetrics data).avgHandleTime = round0 (avgHandleTimeRaw data) := rfl
    constructor
    · rw [h1]
      unfold avgCostPerMinRaw
      rw [hd, if_neg (by norm_num)]
      exact round2_zero
    · rw [h2]
      unfold avgHandleTimeRaw
      rw [h, hd]
      simp [round0_zero]
  · intro data h
    have e1 : (calculateMetrics data).avgInterruptions = round2 (avgInterruptionsRaw data) := rfl
    have e2 : (calculateMetrics data).avgLLMLatency = round0 (avgLLMLatencyRaw data) := rfl
    have e3 : (calculateMetrics data).avgTTSLatency = round0 (avgTTSLatencyRaw data) := rfl
    have e4 : (calculateMetrics data).avgTotalLatency = round0 (avgTotalLatencyRaw data) := rfl
    have hi : avgInterruptionsRaw data = 0 := by
      unfold avgInterruptionsRaw
      rw [h]
      simp
    have hl : avgLLMLatencyRaw data = 0 := by
      unfold avgLLMLatencyRaw
      rw [h]
      simp
    have ht : avgTTSLatencyRaw data = 0 := by
      unfold avgTTSLatencyRaw
      rw [h]
      simp
    refine ⟨by rw [e1, hi]; exact round2_zero, by rw [e2, hl]; exact round0_zero,
      by rw [e3, ht]; exact round0_zero, ?_⟩
    rw [e4]
    unfold avgTotalLatencyRaw
    rw [hl, ht]
    simpa using round0_zero
  · intro data h
    have e : (calculateMetrics data).avgCostPerSuccessfulCall =
        round2 (avgCostPerSuccessfulCallRaw data) := rfl
    rw [e]
    unfold avgCostPerSuccessfulCallRaw
    rw [h]
    simpa using round2_zero

/-- A record set whose single record has zero duration, no stats and a
non-success status: all three conditional subsets are empty. -/
def guardedOnly : List Conversation := [mkCall "a" 0 0 5 Status.dropped none]

/-- C2 witness: the guard clauses at a concrete nonempty input. -/
theorem aggregate_empty_witness :
    (calculateMetrics []).totalCalls = 0 ∧
    (calculateMetrics guardedOnly).avgCostPerMin = 0 ∧
    (calculateMetrics guardedOnly).avgLLMLatency = 0 ∧
    (calculateMetrics guardedOnly).avgCostPerSuccessfulCall = 0 := by
  have h := aggregate_empty_all_zero
  have hdur : callsWithDuration guardedOnly = [] := by
    simp only [callsWithDuration, guardedOnly, mkCall, List.filter_cons, List.filter_nil]
    norm_num
  have hstats : callsWithStats guardedOnly = [] := by
    simp [callsWithStats, guardedOnly, mkCall, List.filter_cons, List.filter_nil]
  have hsucc : successfulCalls guardedOnly = [] := by
    simp [successfulCalls, guardedOnly, mkCall, List.filter_cons, List.filter_nil]
  exact ⟨by rw [h.1]; rfl, (h.2.1 guardedOnly hdur).1, (h.2.2.1 guardedOnly hstats).2.1,
    h.2.2.2 guardedOnly hsucc⟩

/-- C3: the Scenario A aggregate values: 4 calls, total cost 50, success rate
50.0, and average handle time 60 — the mean over only the 3 records with
positive duration (the zero-duration record is excluded from that mean, which
would otherwise be 45). -/
theorem scenarioA_aggregate_values :
    (calculateMetrics scenarioA).totalCalls = 4 ∧
    (calculateMetrics scenarioA).totalCost = 50 ∧
    (calculateMetrics scenarioA).successRate = 50 ∧
    (callsWithDuration scenarioA).length = 3 ∧
    (calculateMetrics scenarioA).avgHandleTime = 60 := by
  refine ⟨rfl, ?_, ?_, ?_, ?_⟩
  · simp only [calculateMetrics, scenarioA, mkCall, totalCost, sumQ,
      List.foldl_cons, List.foldl_nil]
    norm_num [round2, jsRound]
  · simp only [calculateMetrics, scenarioA, mkCall, successRateRaw, successfulCalls,
      List.filter_cons, List.filter_nil]
    simp
    norm_num [round1, jsRound]
  · simp only [callsWithDuration, scenarioA, mkCall, List.filter_cons, List.filter_nil]
    norm_num
  · simp only [calculateMetrics, scenarioA, mkCall, avgHandleTimeRaw, totalDuration,
      callsWithDuration, sumQ, List.filter_cons, List.filter_nil]
    norm_num [round0, jsRound]

/-! ### Filter-dimension predicates -/

/-- The date-dimension predicate of `filterData`; `true` when the dimension is
inactive (either bound absent). -/
def passesDate (f : FilterSpec) (c : Conversation) : Bool :=
  match f.dateStart, f.dateEnd with
  | some s, some e => decide (dayStartMs s ≤ c.startTime ∧ c.startTime ≤ dayEndMs e)
  | _, _ => true

/-- The agent-dimension predicate; `true` when the agent set is empty. -/
def passesAgents (f : FilterSpec) (c : Conversation) : Bool :=
  f.agents.isEmpty || f.agents.contains c.agent

/-- The call-type-dimension predicate; `true` when the set is empty. -/
def passesCallTypes (f : FilterSpec) (c : Conversation) : Bool :=
  f.callTypes.isEmpty || f.callTypes.contains c.callInfo.type

/-- The time-range-dimension predicate; `true` when the token set is empty. -/
def passesTimeRanges (getHours : ℤ → ℤ) (f : FilterSpec) (c : Conversation) : Bool :=
  f.timeRanges.isEmpty ||
    f.timeRanges.any fun tok => hourTokenMatches (getHours c.startTime) tok

theorem filterData_stages (getHours : ℤ → ℤ) (data : List Conversation) (f : FilterSpec) :
    filterData getHours data f =
      (((data.filter (passesDate f)).filter (passesAgents f)).filter
          (passesCallTypes f)).filter (passesTimeRanges getHours f) := by
  have hdate : (match f.dateStart, f.dateEnd with
      | some s, some e =>
          data.filter fun c => decide (dayStartMs s ≤ c.startTime ∧ c.startTime ≤ dayEndMs e)
      | _, _ => data) = data.filter (passesDate f) := by
    unfold passesDate
    rcases f.dateStart with _ | s <;> rcases f.dateEnd with _ | e <;> simp
  have hagents : ∀ l : List Conversation,
      (if f.agents.isEmpty then l else l.filter fun c => f.agents.contains c.agent) =
        l.filter (passesAgents f) := by
    intro l
    unfold passesAgents
    by_cases h : f.agents.isEmpty <;> simp [h]
  have htypes : ∀ l : List Conversation,
      (if f.callTypes.isEmpty then l
        else l.filter fun c => f.callTypes.contains c.callInfo.type) =
        l.filter (passesCallTypes f) := by
    intro l
    unfold passesCallTypes
    by_cases h : f.callTypes.isEmpty <;> simp [h]
  have htimes : ∀ l : List Conversation,
      (if f.timeRanges.isEmpty then l
        else l.filter fun c =>
          f.timeRanges.any fun tok => hourTokenMatches (getHours c.startTime) tok) =
        l.filter (passesTimeRanges getHours f) := by
    intro l
    unfold passesTimeRanges
    by_cases h : f.timeRanges.isEmpty <;> simp [h]
  show (if f.timeRanges.isEmpty then _ else _) = _
  rw [htimes, hagents, htypes, hdate]

/-- C4: filtering with the empty specification is the identity (same records,
same order), and for every specification `filterData` retains exactly the
records passing the conjunction of the four dimension predicates, each of
which is identically true when its dimension is absent or empty. -/
theorem no_filter_identity_and_conjunction (getHours : ℤ → ℤ) (data : List Conversation) :
    filterData getHours data emptyFilterSpec = data ∧
    (∀ f : FilterSpec,
      filterData getHours data f =
        data.filter fun c =>
          passesDate f c && passesAgents f c && passesCallTypes f c &&
            passesTimeRanges getHours f c) ∧
    (∀ (f : FilterSpec) (c : Conversation), passesAgents { f with agents := [] } c = true) ∧
    (∀ (f : FilterSpec) (c : Conversation), passesCallTypes { f with callTypes := [] } c = true) ∧
    (∀ (f : FilterSpec) (c : Conversation),
      passesTimeRanges getHours { f with timeRanges := [] } c = true) ∧
    (∀ (f : FilterSpec) (c : Conversation),
      passesDate { f with dateStart := none } c = true ∧
        passesDate { f with dateEnd := none } c = true) := by
  refine ⟨rfl, fun f => ?_, fun f c => rfl, fun f c => rfl, fun f c => rfl, fun f c => ?_⟩
  · rw [filterData_stages, List.filter_filter, List.filter_filter, List.filter_filter]
    apply List.filter_congr
    intro c _
    simp [Bool.and_comm, Bool.and_left_comm, Bool.and_assoc]
  · constructor
    · rfl
    · unfold passesDate
      rcases f.dateStart with _ | s <;> rfl

/-! ### Date-range filtering -/

/-- A specification with only the date dimension active. -/
def dateOnly (s e : ℤ) : FilterSpec :=
  { emptyFilterSpec with dateStart := some s, dateEnd := some e }

/-- A record at 23:59:59.000 UTC of calendar day 19000. -/
def recEndOfDay : Conversation :=
  mkCall "a" (19000 * 86400000 + 86399000) 60 1 Status.success none

/-- A record at 00:00:00.000 UTC of calendar day 19001. -/
def recNextMidnight : Conversation :=
  mkCall "a" (19001 * 86400000) 60 1 Status.success none

/-- C5: the date dimension is applied only when both bounds are present; when
they are, a record passes iff its `startTime` lies between the start day's
00:00:00.000 UTC and the end day's 23:59:59.999 UTC, inclusive on both ends.
With `start = end = day 19000`, the record at 23:59:59.000 UTC of that day is
kept and the record at 00:00:00.000 UTC of the next day is dropped. -/
theorem dateRange_inclusive_both_required (getHours : ℤ → ℤ) :
    (∀ (data : List Conversation) (s e : ℤ),
      filterData getHours data (dateOnly s e) =
        data.filter fun c =>
          decide (dayStartMs s ≤ c.startTime ∧ c.startTime ≤ dayEndMs e)) ∧
    (∀ (data : List Conversation) (f : FilterSpec),
      f.dateStart = none ∨ f.dateEnd = none →
      filterData getHours data f =
        filterData getHours data { f with dateStart := none, dateEnd := none }) ∧
    (filterData getHours [recEndOfDay, recNextMidnight] (dateOnly 19000 19000) =
      [recEndOfDay]) ∧
    recEndOfDay.startTime = dayStartMs 19000 + 86399000 ∧
    recNextMidnight.startTime = dayStartMs 19001 := by
  refine ⟨?_, ?_, ?_, ?_, ?_⟩
  · intro data s e
    rfl
  · intro data f h
    rcases f with ⟨ds, de, ags, cts, trs⟩
    simp only at h
    rcases h with h | h
    · subst h
      rcases de with _ | e <;> rfl
    · subst h
      rcases ds with _ | s <;> rfl
  · rfl
  · simp [recEndOfDay, mkCall, dayStartMs]
  · simp [recNextMidnight, mkCall, dayStartMs]

/-- C5 witness: a specification with a start date but no end date filters
nothing, at a concrete input. -/
theorem dateRange_witness :
    filterData (fun _ => 0) [recEndOfDay]
        { emptyFilterSpec with dateStart := some 19000 } =
      filterData (fun _ => 0) [recEndOfDay]
        { { emptyFilterSpec with dateStart := some 19000 } with
            dateStart := none, dateEnd := none } :=
  (dateRange_inclusive_both_required (fun _ => 0)).2.1 [recEndOfDay]
    { emptyFilterSpec with dateStart := some 19000 } (Or.inr rfl)

/-! ### Time-range filtering -/

/-- A specification with only the timeRanges dimension active. -/
def timeOnly (toks : List String) : FilterSpec :=
  { emptyFilterSpec with timeRanges := toks }

/-- The concrete `getHours` of a process running in the UTC timezone, for
non-negative epoch timestamps. -/
def hourUTC (t : ℤ) : ℤ := t / 3600000 % 24

/-- A 60-second record: `short` duration bucket. -/
def recShort : Conversation := mkCall "a" 0 60 1 Status.success none

/-- C6 counterexample: the record with duration 60 s falls in the `short`
duration bucket, yet the server-side filter with `timeRanges = ["short"]`
drops it: `filterData` only ever parses tokens as `"H1-H2"` hour intervals,
and `short` parses as NaN. -/
theorem server_timeRanges_ignores_duration_buckets :
    recShort.duration < 120 ∧
    filterData hourUTC [recShort] (timeOnly ["short"]) = [] := by
  constructor
  · norm_num [recShort, mkCall]
  · rfl

/-- C6 (amended): in the server's `filterData` a record passes the
`timeRanges` dimension iff at least one token matches, where a token whose
first two `split('-')` fragments both parse under JS `Number` (whitespace
trimmed; decimal literals with optional fraction, exponent and leading `+`;
`Infinity`; hex/octal/binary integer literals; the empty fragment is 0)
matches iff `start ≤ hour ≤ end`, inclusive on both bounds, with hour derived
from `startTime` via the process-local `getHours` — a `+Infinity` lower bound
never holds, a `+Infinity` upper bound always holds — and any token whose
first two fragments include a NaN — such as the duration-bucket tokens
`short`, `medium`, `long` — is non-matching rather than raising.  Concretely,
`"9-17"` matches hours 9–17, `"9.5-17"` matches hours 10–17, `"0-Infinity"`
matches every hour from 0.  The duration buckets exist only in the client
store's filter, which in turn treats every unrecognized token (hour tokens
included) as matching everything. -/
theorem timeRanges_hour_tokens_only :
    (∀ (g : ℤ → ℤ) (data : List Conversation) (toks : List String), toks ≠ [] →
      filterData g data (timeOnly toks) =
        data.filter fun c => toks.any fun tok => hourTokenMatches (g c.startTime) tok) ∧
    (∀ (hour : ℤ) (tok : String) (a b : JSNum) (rest : List (Option JSNum)),
      (splitDash tok.data).map jsNum = some a :: some b :: rest →
      hourTokenMatches hour tok = (hourGeNum hour a && hourLeNum hour b)) ∧
    (∀ (hour : ℤ) (tok : String) (q1 q2 : ℚ) (rest : List (Option JSNum)),
      (splitDash tok.data).map jsNum = some (JSNum.fin q1) :: some (JSNum.fin q2) :: rest →
      (hourTokenMatches hour tok = true ↔ (q1 ≤ (hour : ℚ) ∧ (hour : ℚ) ≤ q2))) ∧
    (∀ (hour : ℤ) (tok : String),
      (∀ (a b : JSNum) (rest : List (Option JSNum)),
        (splitDash tok.data).map jsNum ≠ some a :: some b :: rest) →
      hourTokenMatches hour tok = false) ∧
    (∀ hour : ℤ, hourTokenMatches hour "short" = false ∧
      hourTokenMatches hour "medium" = false ∧ hourTokenMatches hour "long" = false) ∧
    (∀ hour : ℤ, hourTokenMatches hour "9-17" = true ↔ ((9 : ℤ) ≤ hour ∧ hour ≤ 17)) ∧
    (∀ hour : ℤ, hourTokenMatches hour "9.5-17" = true ↔ ((10 : ℤ) ≤ hour ∧ hour ≤ 17)) ∧
    (∀ hour : ℤ, hourTokenMatches hour "0-Infinity" = true ↔ (0 : ℤ) ≤ hour) ∧
    (∀ (d : ℚ) (tok : String), tok ≠ "short" → tok ≠ "medium" → tok ≠ "long" →
      Store.timeRangeMatches d tok = true) := by
  have hgen : ∀ (hour : ℤ) (tok : String) (a b : JSNum) (rest : List (Option JSNum)),
      (splitDash tok.data).map jsNum = some a :: some b :: rest →
      hourTokenMatches hour tok = (hourGeNum hour a && hourLeNum hour b) := by
    intro hour tok a b rest h
    unfold hourTokenMatches
    rw [h]
  have hfin : ∀ (hour : ℤ) (tok : String) (q1 q2 : ℚ) (rest : List (Option JSNum)),
      (splitDash tok.data).map jsNum = some (JSNum.fin q1) :: some (JSNum.fin q2) :: rest →
      (hourTokenMatches hour tok = true ↔ (q1 ≤ (hour : ℚ) ∧ (hour : ℚ) ≤ q2)) := by
    intro hour tok q1 q2 rest h
    rw [hgen hour tok _ _ rest h]
    simp [hourGeNum, hourLeNum]
  refine ⟨?_, hgen, hfin, ?_, fun hour => ⟨rfl, rfl, rfl⟩, ?_, ?_, ?_, ?_⟩
  · intro g data toks h
    rw [filterData_stages,
      show passesDate (timeOnly toks) = fun _ => true from rfl, List.filter_true,
      show passesAgents (timeOnly toks) = fun _ => true from rfl, List.filter_true,
      show passesCallTypes (timeOnly toks) = fun _ => true from rfl, List.filter_true]
    apply List.filter_congr
    intro c _
    have hne : toks.isEmpty = false := by
      cases toks with
      | nil => exact absurd rfl h
      | cons a l => rfl
    simp [passesTimeRanges, timeOnly, emptyFilterSpec, hne]
  · intro hour tok hne
    unfold hourTokenMatches
    rcases h1 : (splitDash tok.data).map jsNum with _ | ⟨o1, l1⟩
    · rfl
    · rcases o1 with _ | a
      · rfl
      · rcases l1 with _ | ⟨o2, l2⟩
        · rfl
        · rcases o2 with _ | b
          · rfl
          · exact absurd h1 (hne a b l2)
  · intro hour
    rw [hfin hour "9-17" ((9 : ℕ) : ℚ) ((17 : ℕ) : ℚ) [] rfl]
    constructor
    · rintro ⟨h1, h2⟩
      exact ⟨by exact_mod_cast h1, by exact_mod_cast h2⟩
    · rintro ⟨h1, h2⟩
      exact ⟨by exact_mod_cast h1, by exact_mod_cast h2⟩
  · intro hour
    rw [hfin hour "9.5-17"
        (((digitsVal 10 ['9'] : ℕ) : ℚ) + ((digitsVal 10 ['5'] : ℕ) : ℚ) / 10 ^ 1)
        ((17 : ℕ) : ℚ) [] rfl]
    have hval : (((digitsVal 10 ['9'] : ℕ) : ℚ) +
        ((digitsVal 10 ['5'] : ℕ) : ℚ) / 10 ^ 1) = 19 / 2 := by
      rw [show digitsVal 10 ['9'] = 9 from rfl, show digitsVal 10 ['5'] = 5 from rfl]
      norm_num
    rw [hval]
    constructor
    · rintro ⟨h1, h2⟩
      have h1' : (19 : ℚ) ≤ (hour : ℚ) * 2 := by
        rw [div_le_iff₀ (by norm_num : (0 : ℚ) < 2)] at h1
        linarith
      have h1z : (19 : ℤ) ≤ hour * 2 := by exact_mod_cast h1'
      exact ⟨by omega, by exact_mod_cast h2⟩
    · rintro ⟨h1, h2⟩
      have h1q : (10 : ℚ) ≤ (hour : ℚ) := by exact_mod_cast h1
      exact ⟨by linarith, by exact_mod_cast h2⟩
  · intro hour
    rw [hgen hour "0-Infinity" (JSNum.fin ((0 : ℕ) : ℚ)) JSNum.inf [] rfl]
    simp only [hourGeNum, hourLeNum, Bool.and_true, decide_eq_true_eq]
    constructor
    · intro h1
      exact_mod_cast h1
    · intro h1
      exact_mod_cast h1
  · intro d tok h1 h2 h3
    unfold Store.timeRangeMatches
    rw [if_neg h1, if_neg h2, if_neg h3]

/-- C6 witness: the amended semantics at concrete inputs — an hour-token
filter applied to a record; inclusive matches for a plain, a decimal and an
`Infinity`-bounded hour token (and a non-match just below the decimal
bound); a non-parsing token; and the client's match-all default. -/
theorem timeRanges_witness :
    filterData hourUTC [recShort] (timeOnly ["0-23"]) =
      [recShort].filter (fun c =>
        ["0-23"].any fun tok => hourTokenMatches (hourUTC c.startTime) tok) ∧
    hourTokenMatches 10 "9-17" = true ∧
    hourTokenMatches 10 "9.5-17" = true ∧
    hourTokenMatches 9 "9.5-17" = false ∧
    hourTokenMatches 10 "0-Infinity" = true ∧
    hourTokenMatches 10 "x" = false ∧
    Store.timeRangeMatches 50 "9-17" = true := by
  have h := timeRanges_hour_tokens_only
  refine ⟨h.1 hourUTC [recShort] ["0-23"] (by simp), ?_, ?_, ?_, ?_, ?_, ?_⟩
  · exact (h.2.2.2.2.2.1 10).mpr ⟨by norm_num, by norm_num⟩
  · exact (h.2.2.2.2.2.2.1 10).mpr ⟨by norm_num, by norm_num⟩
  · cases hb : hourTokenMatches 9 "9.5-17" with
    | false => rfl
    | true =>
      have h910 := (h.2.2.2.2.2.2.1 9).mp hb
      exact absurd h910 (by omega)
  · exact (h.2.2.2.2.2.2.2.1 10).mpr (by norm_num)
  · refine h.2.2.2.1 10 "x" ?_
    intro a b rest hx
    rw [show (splitDash "x".data).map jsNum = [none] from rfl] at hx
    simp at hx
  · exact h.2.2.2.2.2.2.2.2 50 "9-17" (by decide) (by decide) (by decide)

/-! ### Agent grouping -/

theorem firstKeys_cons (a : String) (rest : List String) :
    firstKeys (a :: rest) = a :: firstKeys (rest.filter fun b => decide (b ≠ a)) := by
  rw [firstKeys]

theorem mem_firstKeys (l : List String) (x : String) : x ∈ firstKeys l ↔ x ∈ l := by
  induction l using firstKeys.induct with
  | case1 => simp [firstKeys]
  | case2 a rest ih =>
    rw [firstKeys_cons]
    by_cases hx : x = a
    · subst hx; simp
    · simp only [List.mem_cons, ih, List.mem_filter, hx, false_or]
      constructor
      · exact fun h => h.1
      · exact fun h => ⟨h, by simpa using hx⟩

theorem firstKeys_nodup (l : List String) : (firstKeys l).Nodup := by
  induction l using firstKeys.induct with
  | case1 => simp [firstKeys]
  | case2 a rest ih =>
    rw [firstKeys_cons]
    refine List.nodup_cons.mpr ⟨?_, ih⟩
    rw [mem_firstKeys]
    simp

/-- Splitting a record list over a duplicate-free covering key list counts
every record exactly once. -/
theorem length_eq_sum_group_lengths :
    ∀ (keys : List String), keys.Nodup →
      ∀ l : List Conversation, (∀ c ∈ l, c.agent ∈ keys) →
        (keys.map fun a => (l.filter fun c => c.agent == a).length).sum = l.length := by
  intro keys
  induction keys with
  | nil =>
    intro _ l hcov
    cases l with
    | nil => rfl
    | cons c t => exact absurd (hcov c (by simp)) (by simp)
  | cons a ks ih =>
    intro hnd l hcov
    have hα : a ∉ ks := (List.nodup_cons.mp hnd).1
    have hks : ks.Nodup := (List.nodup_cons.mp hnd).2
    have hsplit := (List.length_eq_length_filter_add (l := l)
      (fun c => c.agent == a)).symm
    have hgroups : ∀ b ∈ ks,
        l.filter (fun c => c.agent == b) =
          (l.filter fun c => !(c.agent == a)).filter fun c => c.agent == b := by
      intro b hb
      rw [List.filter_filter]
      apply List.filter_congr
      intro c _
      by_cases hcb : c.agent = b
      · have hba : b ≠ a := fun hba => hα (hba ▸ hb)
        have hca : ¬(c.agent = a) := by
          rw [hcb]
          exact hba
        simp [hcb, hca, hba]
      · simp [hcb]
    have hcov' : ∀ c ∈ l.filter (fun c => !(c.agent == a)), c.agent ∈ ks := by
      intro c hc
      rw [List.mem_filter] at hc
      have h1 := hcov c hc.1
      have h2 : ¬(c.agent = a) := by simpa using hc.2
      simpa [h2] using h1
    have hmap : (ks.map fun b => (l.filter fun c => c.agent == b).length) =
        ks.map fun b =>
          ((l.filter fun c => !(c.agent == a)).filter fun c => c.agent == b).length := by
      apply List.map_congr_left
      intro b hb
      rw [hgroups b hb]
    rw [List.map_cons, List.sum_cons, hmap, ih hks _ hcov']
    omega

/-- C7: `calculateAgentMetrics` partitions its input by the `agent` field and
aggregates each partition independently: each listed agent's entry is
`calculateMetrics` of exactly that agent's records, an agent appears iff it
has at least one record, the key list is duplicate-free, the group sizes sum
to the input size (no record lost or duplicated), and a record belongs to an
agent's group iff that agent is its own. -/
theorem aggregateByAgent_partitions (data : List Conversation) :
    (∀ p ∈ calculateAgentMetrics data,
      p.2 = calculateMetrics (data.filter fun c => c.agent == p.1)) ∧
    (∀ a : String,
      (∃ m, (a, m) ∈ calculateAgentMetrics data) ↔ ∃ c ∈ data, c.agent = a) ∧
    ((calculateAgentMetrics data).map Prod.fst).Nodup ∧
    ((((calculateAgentMetrics data).map Prod.fst).map
        fun a => (data.filter fun c => c.agent == a).length).sum = data.length) ∧
    (∀ c ∈ data, ∀ a : String,
      (c ∈ data.filter (fun x => x.agent == a) ↔ c.agent = a)) := by
  have hfst : (calculateAgentMetrics data).map Prod.fst =
      firstKeys (data.map fun c => c.agent) := by
    unfold calculateAgentMetrics
    have hid : (Prod.fst ∘ fun a : String =>
        (a, calculateMetrics (data.filter fun c => c.agent == a))) = id := rfl
    rw [List.map_map, hid, List.map_id]
  refine ⟨?_, ?_, ?_, ?_, ?_⟩
  · intro p hp
    unfold calculateAgentMetrics at hp
    obtain ⟨a, _, rfl⟩ := List.mem_map.mp hp
    rfl
  · intro a
    constructor
    · rintro ⟨m, hm⟩
      unfold calculateAgentMetrics at hm
      obtain ⟨b, hb, hba⟩ := List.mem_map.mp hm
      have : b = a := congrArg Prod.fst hba
      subst this
      rw [mem_firstKeys] at hb
      obtain ⟨c, hc, hca⟩ := List.mem_map.mp hb
      exact ⟨c, hc, hca⟩
    · rintro ⟨c, hc, rfl⟩
      refine ⟨calculateMetrics (data.filter fun x => x.agent == c.agent), ?_⟩
      unfold calculateAgentMetrics
      apply List.mem_map.mpr
      refine ⟨c.agent, ?_, rfl⟩
      rw [mem_firstKeys]
      exact List.mem_map.mpr ⟨c, hc, rfl⟩
  · rw [hfst]; exact firstKeys_nodup _
  · rw [hfst]
    apply length_eq_sum_group_lengths _ (firstKeys_nodup _)
    intro c hc
    rw [mem_firstKeys]
    exact List.mem_map.mpr ⟨c, hc, rfl⟩
  · intro c hc a
    rw [List.mem_filter]
    constructor
    · intro h
      simpa using h.2
    · intro h
      exact ⟨hc, by simpa using h⟩

/-- C7 witness: on Scenario A, agent a1 appears with an entry and the group
sizes sum to 4. -/
theorem aggregateByAgent_witness :
    (∃ m, ("a1", m) ∈ calculateAgentMetrics scenarioA) ∧
    ((((calculateAgentMetrics scenarioA).map Prod.fst).map
        fun a => (scenarioA.filter fun c => c.agent == a).length).sum =
      scenarioA.length) := by
  have h := aggregateByAgent_partitions scenarioA
  refine ⟨(h.2.1 "a1").mpr ⟨mkCall "a1" 0 60 10 Status.success none, by simp [scenarioA], rfl⟩,
    h.2.2.2.1⟩

/-! ### Latency rounding -/

/-- Two records with stats, average LLM latency 0.5 and average TTS latency
0.5: each rounds up to 1, while the full-precision total 1.0 rounds to 1. -/
def latencyPair : List Conversation :=
  [mkCall "a" 0 10 0 Status.success
      (some { llmLatency := some 0, ttsLatency := some 0, interruptions := some 0 }),
   mkCall "a" 0 10 0 Status.success
      (some { llmLatency := some 1, ttsLatency := some 1, interruptions := some 0 })]

/-- C8 counterexample: on `latencyPair` the returned `avgTotalLatency` field
is 1 while the sum of the returned `avgLLMLatency` and `avgTTSLatency` fields
is 2 — the serialized fields do not satisfy
`avgTotalLatency = avgLLMLatency + avgTTSLatency`. -/
theorem rounded_latency_sum_mismatch :
    (calculateMetrics latencyPair).avgLLMLatency = 1 ∧
    (calculateMetrics latencyPair).avgTTSLatency = 1 ∧
    (calculateMetrics latencyPair).avgTotalLatency = 1 ∧
    (calculateMetrics latencyPair).avgTotalLatency ≠
      (calculateMetrics latencyPair).avgLLMLatency +
        (calculateMetrics latencyPair).avgTTSLatency := by
  have hl : (calculateMetrics latencyPair).avgLLMLatency = 1 := by
    simp only [calculateMetrics, latencyPair, mkCall, avgLLMLatencyRaw, totalLLMLatency,
      callsWithStats, statVal, sumQ, List.filter_cons, List.filter_nil,
      List.foldl_cons, List.foldl_nil]
    simp
    norm_num [round0, jsRound]
  have ht : (calculateMetrics latencyPair).avgTTSLatency = 1 := by
    simp only [calculateMetrics, latencyPair, mkCall, avgTTSLatencyRaw, totalTTSLatency,
      callsWithStats, statVal, sumQ, List.filter_cons, List.filter_nil,
      List.foldl_cons, List.foldl_nil]
    simp
    norm_num [round0, jsRound]
  have htot : (calculateMetrics latencyPair).avgTotalLatency = 1 := by
    simp only [calculateMetrics, latencyPair, mkCall, avgTotalLatencyRaw,
      avgLLMLatencyRaw, avgTTSLatencyRaw, totalLLMLatency, totalTTSLatency,
      callsWithStats, statVal, sumQ, List.filter_cons, List.filter_nil,
      List.foldl_cons, List.foldl_nil]
    simp
    norm_num [round0, jsRound]
  refine ⟨hl, ht, htot, ?_⟩
  rw [hl, ht, htot]
  norm_num

/-- C8 (amended): the returned `avgTotalLatency` field is the full-precision
sum `avgLLMLatencyRaw + avgTTSLatencyRaw` rounded once to the nearest whole
unit, which can differ from the sum of the independently rounded
`avgLLMLatency` and `avgTTSLatency` fields — but by at most one unit. -/
theorem avgTotalLatency_rounds_unrounded_sum (data : List Conversation) :
    (calculateMetrics data).avgTotalLatency =
      round0 (avgLLMLatencyRaw data + avgTTSLatencyRaw data) ∧
    |(calculateMetrics data).avgTotalLatency -
        ((calculateMetrics data).avgLLMLatency + (calculateMetrics data).avgTTSLatency)| ≤
      1 := by
  refine ⟨rfl, ?_⟩
  rw [show (calculateMetrics data).avgTotalLatency =
        round0 (avgLLMLatencyRaw data + avgTTSLatencyRaw data) from rfl,
    show (calculateMetrics data).avgLLMLatency = round0 (avgLLMLatencyRaw data) from rfl,
    show (calculateMetrics data).avgTTSLatency = round0 (avgTTSLatencyRaw data) from rfl]
  exact round0_add_bound _ _

/-! ### Client-store versus server formulas -/

theorem sumQ_congr (f g : Conversation → ℚ) (l : List Conversation)
    (h : ∀ c ∈ l, f c = g c) : sumQ f l = sumQ g l := by
  induction l with
  | nil => rfl
  | cons c t ih =>
    rw [sumQ_cons, sumQ_cons, h c (by simp), ih fun x hx => h x (by simp [hx])]

/-- C9 (amended): over exact arithmetic, the client-store views agree with
the server's unrounded formulas on every field except `failureRate`,
`abandonmentRate` and `avgHandleTime` (for `avgCostPerMin`, given the
non-negative durations the data model guarantees).  The client swaps the
failure/abandonment classification (`dropped`/`no_answer` versus
`busy`/`no_answer`) and averages handle time over all records instead of the
`duration > 0` ones. -/
theorem client_server_field_agreement (data : List Conversation)
    (hdur : ∀ c ∈ data, 0 ≤ c.duration) :
    Store.avgCostPerCall data = avgCostPerCallRaw data ∧
    Store.avgCostPerMin data = avgCostPerMinRaw data ∧
    Store.successRate data = successRateRaw data ∧
    Store.transferRate data = transferRateRaw data ∧
    Store.avgInterruptions data = avgInterruptionsRaw data ∧
    Store.avgLLMLatency data = avgLLMLatencyRaw data ∧
    Store.avgTTSLatency data = avgTTSLatencyRaw data ∧
    Store.avgTotalLatency data = avgTotalLatencyRaw data ∧
    Store.avgCostPerSuccessfulCall data = avgCostPerSuccessfulCallRaw data := by
  have hlen := Nat.eq_zero_or_pos data.length
  refine ⟨?_, ?_, ?_, ?_, ?_, ?_, ?_, ?_, ?_⟩
  · rcases hlen with h | h
    · simp [Store.avgCostPerCall, avgCostPerCallRaw, totalCost, h]
    · have h0 : ¬(data.length = 0) := by omega
      simp [Store.avgCostPerCall, avgCostPerCallRaw, totalCost, h, h0]
  · have hmin : sumQ (fun c => c.duration / 60) data = totalDuration data / 60 := by
      rw [sumQ_div]
      unfold totalDuration callsWithDuration
      rw [sumQ_duration_filter data hdur]
    have hiff : (0 < totalDuration data / 60) ↔ (0 < totalDuration data) :=
      ⟨fun hx => by nlinarith, fun hx => by positivity⟩
    rcases hlen with h | h
    · have hd : data = [] := List.length_eq_zero.mp h
      subst hd
      simp [Store.avgCostPerMin, avgCostPerMinRaw, totalDuration, callsWithDuration,
        totalCost, sumQ_nil]
    · have h0 : ¬(data.length = 0) := by omega
      unfold Store.avgCostPerMin avgCostPerMinRaw
      rw [if_neg h0, hmin]
      by_cases htd : 0 < totalDuration data
      · rw [if_pos (hiff.mpr htd), if_pos htd]
        rfl
      · rw [if_neg (fun hx => htd (hiff.mp hx)), if_neg htd]
  · rcases hlen with h | h
    · simp [Store.successRate, successRateRaw, h]
    · have h0 : ¬(data.length = 0) := by omega
      simp [Store.successRate, successRateRaw, successfulCalls, h, h0]
  · rcases hlen with h | h
    · simp [Store.transferRate, transferRateRaw, h]
    · have h0 : ¬(data.length = 0) := by omega
      simp [Store.transferRate, transferRateRaw, transferredCalls, h, h0]
  · have hws := Nat.eq_zero_or_pos (callsWithStats data).length
    rcases hws with h | h
    · unfold callsWithStats at h
      unfold Store.avgInterruptions avgInterruptionsRaw totalInterruptions callsWithStats
      rw [if_pos h, if_neg (by omega)]
    · have h0 : ¬((data.filter fun c => c.callInfo.stats.isSome).length = 0) := by
        unfold callsWithStats at h
        omega
      unfold Store.avgInterruptions avgInterruptionsRaw totalInterruptions callsWithStats
      rw [if_neg h0, if_pos (by omega)]
  · have hws := Nat.eq_zero_or_pos (callsWithStats data).length
    rcases hws with h | h
    · unfold callsWithStats at h
      unfold Store.avgLLMLatency avgLLMLatencyRaw totalLLMLatency callsWithStats
      rw [if_pos h, if_neg (by omega)]
    · have h' : ¬((data.filter fun c => c.callInfo.stats.isSome).length = 0) := by
        unfold callsWithStats at h
        omega
      unfold Store.avgLLMLatency avgLLMLatencyRaw totalLLMLatency callsWithStats
      rw [if_neg h', if_pos (by omega)]
  · have hws := Nat.eq_zero_or_pos (callsWithStats data).length
    rcases hws with h | h
    · unfold callsWithStats at h
      unfold Store.avgTTSLatency avgTTSLatencyRaw totalTTSLatency callsWithStats
      rw [if_pos h, if_neg (by omega)]
    · have h' : ¬((data.filter fun c => c.callInfo.stats.isSome).length = 0) := by
        unfold callsWithStats at h
        omega
      unfold Store.avgTTSLatency avgTTSLatencyRaw totalTTSLatency callsWithStats
      rw [if_neg h', if_pos (by omega)]
  · have hws := Nat.eq_zero_or_pos (callsWithStats data).length
    have hsum : sumQ (fun c => statVal CallStats.llmLatency c + statVal CallStats.ttsLatency c)
        (data.filter fun c => c.callInfo.stats.isSome) =
          sumQ (statVal CallStats.llmLatency) (data.filter fun c => c.callInfo.stats.isSome) +
          sumQ (statVal CallStats.ttsLatency) (data.filter fun c => c.callInfo.stats.isSome) :=
      sumQ_add _ _ _
    rcases hws with h | h
    · unfold callsWithStats at h
      unfold Store.avgTotalLatency avgTotalLatencyRaw avgLLMLatencyRaw avgTTSLatencyRaw
        totalLLMLatency totalTTSLatency callsWithStats
      rw [if_pos h, if_neg (by omega), if_neg (by omega)]
      norm_num
    · have h' : ¬((data.filter fun c => c.callInfo.stats.isSome).length = 0) := by
        unfold callsWithStats at h
        omega
      unfold Store.avgTotalLatency avgTotalLatencyRaw avgLLMLatencyRaw avgTTSLatencyRaw
        totalLLMLatency totalTTSLatency callsWithStats
      rw [if_neg h', if_pos (by omega), if_pos (by omega), hsum, add_div]
  · have hsc := Nat.eq_zero_or_pos (successfulCalls data).length
    rcases hsc with h | h
    · unfold successfulCalls at h
      unfold Store.avgCostPerSuccessfulCall avgCostPerSuccessfulCallRaw successfulCalls
      rw [if_pos h, if_neg (by omega)]
    · have h' : ¬((data.filter fun c => c.status == Status.success).length = 0) := by
        unfold successfulCalls at h
        omega
      unfold Store.avgCostPerSuccessfulCall avgCostPerSuccessfulCallRaw successfulCalls
      rw [if_neg h', if_pos (by omega)]

/-- One `busy` zero-duration record and one `no_answer` 60-second record. -/
def divergePair : List Conversation :=
  [mkCall "a" 0 0 1 Status.busy none,
   mkCall "a" 0 60 1 Status.no_answer none]

/-- C9 counterexample: on `divergePair` the client and server disagree on the
unrounded `failureRate` (50 versus 100), `abandonmentRate` (100 versus 50)
and `avgHandleTime` (30 versus 60). -/
theorem client_server_metric_divergence :
    Store.failureRate divergePair = 50 ∧ failureRateRaw divergePair = 100 ∧
    Store.abandonmentRate divergePair = 100 ∧ abandonmentRateRaw divergePair = 50 ∧
    Store.avgHandleTime divergePair = 30 ∧ avgHandleTimeRaw divergePair = 60 ∧
    Store.failureRate divergePair ≠ failureRateRaw divergePair ∧
    Store.abandonmentRate divergePair ≠ abandonmentRateRaw divergePair ∧
    Store.avgHandleTime divergePair ≠ avgHandleTimeRaw divergePair := by
  have h1 : Store.failureRate divergePair = 50 := by
    simp only [Store.failureRate, divergePair, mkCall, List.filter_cons, List.filter_nil]
    simp
    norm_num
  have h2 : failureRateRaw divergePair = 100 := by
    simp only [failureRateRaw, divergePair, mkCall, busyCalls, successfulCalls,
      transferredCalls, droppedCalls, List.filter_cons, List.filter_nil]
    simp
  have h3 : Store.abandonmentRate divergePair = 100 := by
    simp only [Store.abandonmentRate, divergePair, mkCall, List.filter_cons,
      List.filter_nil]
    simp
  have h4 : abandonmentRateRaw divergePair = 50 := by
    simp only [abandonmentRateRaw, divergePair, mkCall, droppedCalls, List.filter_cons,
      List.filter_nil]
    simp
    norm_num
  have h5 : Store.avgHandleTime divergePair = 30 := by
    simp only [Store.avgHandleTime, divergePair, mkCall, sumQ, List.foldl_cons,
      List.foldl_nil]
    norm_num
  have h6 : avgHandleTimeRaw divergePair = 60 := by
    simp only [avgHandleTimeRaw, divergePair, mkCall, totalDuration, callsWithDuration,
      sumQ, List.filter_cons, List.filter_nil]
    simp
  refine ⟨h1, h2, h3, h4, h5, h6, ?_, ?_, ?_⟩
  · rw [h1, h2]; norm_num
  · rw [h3, h4]; norm_num
  · rw [h5, h6]; norm_num

/-- C9 witness: two of the agreeing fields at the concrete Scenario A set. -/
theorem client_server_agreement_witness :
    Store.avgCostPerMin scenarioA = avgCostPerMinRaw scenarioA ∧
    Store.successRate scenarioA = successRateRaw scenarioA := by
  have hdur : ∀ c ∈ scenarioA, 0 ≤ c.duration := by
    intro c hc
    simp only [scenarioA, List.mem_cons, List.not_mem_nil, or_false] at hc
    rcases hc with rfl | rfl | rfl | rfl <;> norm_num [mkCall]
  have h := client_server_field_agreement scenarioA hdur
  exact ⟨h.2.1, h.2.2.1⟩

/-! ### Defensive stat-field reads -/

/-- Replaces each missing numeric stat field of a present stats object by an
explicit 0; absent stats objects and all other record fields are untouched. -/
def fillStats (c : Conversation) : Conversation :=
  { c with callInfo :=
      { c.callInfo with stats := c.callInfo.stats.map fun s =>
          { llmLatency := some (s.llmLatency.getD 0),
            ttsLatency := some (s.ttsLatency.getD 0),
            interruptions := some (s.interruptions.getD 0) } } }

theorem fillStats_isSome (c : Conversation) :
    (fillStats c).callInfo.stats.isSome = c.callInfo.stats.isSome := by
  unfold fillStats
  cases c.callInfo.stats <;> rfl

theorem statVal_llm_fillStats (c : Conversation) :
    statVal CallStats.llmLatency (fillStats c) = statVal CallStats.llmLatency c := by
  unfold statVal fillStats
  cases h : c.callInfo.stats with
  | none => simp [h]
  | some s => cases hl : s.llmLatency <;> simp [h, hl]

theorem statVal_tts_fillStats (c : Conversation) :
    statVal CallStats.ttsLatency (fillStats c) = statVal CallStats.ttsLatency c := by
  unfold statVal fillStats
  cases h : c.callInfo.stats with
  | none => simp [h]
  | some s => cases hl : s.ttsLatency <;> simp [h, hl]

theorem statVal_int_fillStats (c : Conversation) :
    statVal CallStats.interruptions (fillStats c) = statVal CallStats.interruptions c := by
  unfold statVal fillStats
  cases h : c.callInfo.stats with
  | none => simp [h]
  | some s => cases hl : s.interruptions <;> simp [h, hl]

theorem filter_map_fillStats (p : Conversation → Bool)
    (hp : ∀ c, p (fillStats c) = p c) (data : List Conversation) :
    (data.map fillStats).filter p = (data.filter p).map fillStats := by
  rw [List.filter_map]
  congr 1
  apply List.filter_congr
  intro c _
  exact hp c

theorem callsWithStats_fillStats (data : List Conversation) :
    callsWithStats (data.map fillStats) = (callsWithStats data).map fillStats :=
  filter_map_fillStats _ fillStats_isSome data

/-- Two records with stats present; the first has every numeric stat field
missing, the second has llmLatency 4, ttsLatency 6, interruptions 2. -/
def statsPartialPair : List Conversation :=
  [mkCall "a" 0 0 0 Status.success
      (some { llmLatency := none, ttsLatency := none, interruptions := none }),
   mkCall "a" 0 0 0 Status.success
      (some { llmLatency := some 4, ttsLatency := some 6, interruptions := some 2 })]

/-- C10: `calculateMetrics` reads each stat field as `(stats.f || 0)`: a
record whose stats object is present but misses `llmLatency`, `ttsLatency` or
`interruptions` is still counted in the latency/interruption denominators
with the missing value taken as 0 — replacing the missing fields by explicit
zeros changes nothing, and no malformed-record failure exists (the function
is total).  Concretely, the all-fields-missing record of `statsPartialPair`
stays in the denominator: the averages are (0+4)/2, (0+6)/2 and (0+2)/2. -/
theorem missing_stat_fields_count_as_zero (data : List Conversation) :
    calculateMetrics (data.map fillStats) = calculateMetrics data ∧
    (callsWithStats statsPartialPair).length = 2 ∧
    (calculateMetrics statsPartialPair).avgLLMLatency = 2 ∧
    (calculateMetrics statsPartialPair).avgTTSLatency = 3 ∧
    (calculateMetrics statsPartialPair).avgInterruptions = 1 := by
  have hlen : (data.map fillStats).length = data.length := List.length_map _ _
  have hcwd : callsWithDuration (data.map fillStats) =
      (callsWithDuration data).map fillStats :=
    filter_map_fillStats (fun c => decide (0 < c.duration)) (fun c => rfl) data
  have hsucc : successfulCalls (data.map fillStats) =
      (successfulCalls data).map fillStats :=
    filter_map_fillStats (fun c => c.status == Status.success) (fun c => rfl) data
  have htran : transferredCalls (data.map fillStats) =
      (transferredCalls data).map fillStats :=
    filter_map_fillStats (fun c => c.status == Status.transfer) (fun c => rfl) data
  have hdrop : droppedCalls (data.map fillStats) =
      (droppedCalls data).map fillStats :=
    filter_map_fillStats
      (fun c => c.status == Status.dropped || c.status == Status.no_answer)
      (fun c => rfl) data
  have hbusy : busyCalls (data.map fillStats) =
      (busyCalls data).map fillStats :=
    filter_map_fillStats (fun c => c.status == Status.busy) (fun c => rfl) data
  have hcws := callsWithStats_fillStats data
  have hTC : totalCost (data.map fillStats) = totalCost data := by
    unfold totalCost
    rw [sumQ_map]
    exact sumQ_congr _ _ _ fun c _ => rfl
  have hTD : totalDuration (data.map fillStats) = totalDuration data := by
    unfold totalDuration
    rw [hcwd, sumQ_map]
    exact sumQ_congr _ _ _ fun c _ => rfl
  have hTI : totalInterruptions (data.map fillStats) = totalInterruptions data := by
    unfold totalInterruptions
    rw [hcws, sumQ_map]
    exact sumQ_congr _ _ _ fun c _ => statVal_int_fillStats c
  have hTL : totalLLMLatency (data.map fillStats) = totalLLMLatency data := by
    unfold totalLLMLatency
    rw [hcws, sumQ_map]
    exact sumQ_congr _ _ _ fun c _ => statVal_llm_fillStats c
  have hTT : totalTTSLatency (data.map fillStats) = totalTTSLatency data := by
    unfold totalTTSLatency
    rw [hcws, sumQ_map]
    exact sumQ_congr _ _ _ fun c _ => statVal_tts_fillStats c
  have hSucc : sumQ (fun c => c.cost) ((successfulCalls data).map fillStats) =
      sumQ (fun c => c.cost) (successfulCalls data) := by
    rw [sumQ_map]
    exact sumQ_congr _ _ _ fun c _ => rfl
  have r1 : avgCostPerCallRaw (data.map fillStats) = avgCostPerCallRaw data := by
    unfold avgCostPerCallRaw
    rw [hTC, hlen]
  have r2 : avgCostPerMinRaw (data.map fillStats) = avgCostPerMinRaw data := by
    unfold avgCostPerMinRaw
    rw [hTC, hTD]
  have r3 : successRateRaw (data.map fillStats) = successRateRaw data := by
    unfold successRateRaw
    simp only [hsucc, List.length_map, hlen]
  have r4 : transferRateRaw (data.map fillStats) = transferRateRaw data := by
    unfold transferRateRaw
    simp only [htran, List.length_map, hlen]
  have r5 : abandonmentRateRaw (data.map fillStats) = abandonmentRateRaw data := by
    unfold abandonmentRateRaw
    simp only [hdrop, List.length_map, hlen]
  have r6 : failureRateRaw (data.map fillStats) = failureRateRaw data := by
    unfold failureRateRaw
    simp only [hbusy, hsucc, htran, hdrop, List.length_map, hlen]
  have r7 : avgInterruptionsRaw (data.map fillStats) = avgInterruptionsRaw data := by
    unfold avgInterruptionsRaw
    simp only [hTI, hcws, List.length_map]
  have r8 : avgLLMLatencyRaw (data.map fillStats) = avgLLMLatencyRaw data := by
    unfold avgLLMLatencyRaw
    simp only [hTL, hcws, List.length_map]
  have r9 : avgTTSLatencyRaw (data.map fillStats) = avgTTSLatencyRaw data := by
    unfold avgTTSLatencyRaw
    simp only [hTT, hcws, List.length_map]
  have r10 : avgTotalLatencyRaw (data.map fillStats) = avgTotalLatencyRaw data := by
    unfold avgTotalLatencyRaw
    rw [r8, r9]
  have r11 : avgCostPerSuccessfulCallRaw (data.map fillStats) =
      avgCostPerSuccessfulCallRaw data := by
    unfold avgCostPerSuccessfulCallRaw
    simp only [hsucc, hSucc, List.length_map]
  have r12 : avgHandleTimeRaw (data.map fillStats) = avgHandleTimeRaw data := by
    unfold avgHandleTimeRaw
    simp only [hTD, hcwd, List.length_map]
  refine ⟨?_, rfl, ?_, ?_, ?_⟩
  · unfold calculateMetrics
    rw [r1, r2, r3, r4, r5, r6, r7, r8, r9, r10, r11, r12, hTC, hlen]
  · simp only [calculateMetrics, statsPartialPair, mkCall, avgLLMLatencyRaw,
      totalLLMLatency, callsWithStats, statVal, sumQ, List.filter_cons, List.filter_nil,
      List.foldl_cons, List.foldl_nil]
    simp
    norm_num [round0, jsRound]
  · simp only [calculateMetrics, statsPartialPair, mkCall, avgTTSLatencyRaw,
      totalTTSLatency, callsWithStats, statVal, sumQ, List.filter_cons, List.filter_nil,
      List.foldl_cons, List.foldl_nil]
    simp
    norm_num [round0, jsRound]
  · simp only [calculateMetrics, statsPartialPair, mkCall, avgInterruptionsRaw,
      totalInterruptions, callsWithStats, statVal, sumQ, List.filter_cons,
      List.filter_nil, List.foldl_cons, List.foldl_nil]
    simp
    norm_num [round2, jsRound]
